import Mathlib

/-!
Verification of the hybrid retrieval engine of SmartClause
(src/analyzer/app/services/retrieval_service.py): BM25 lexical scoring,
vector candidate generation, reciprocal-rank fusion, and rule-level
aggregation, shallowly embedded over rational arithmetic.  External
collaborators (the query encoder, the pgvector distance operators and
the math.log function) are passed in as explicit parameters.
-/

namespace SmartClause

/-- Supported distance functions (enum DistanceFunction). -/
inductive DistanceFunction where
  | cosine
  | l2
  | inner_product
deriving DecidableEq, Repr, Inhabited

/-- String value of a distance function (the .value attribute of the enum). -/
def DistanceFunction.value : DistanceFunction → String
  | .cosine => "cosine"
  | .l2 => "l2"
  | .inner_product => "inner_product"

/-- Row of the rules table (models/database.py, class Rule). -/
structure Rule where
  rule_id : Int
  file : String
  rule_number : Int
  rule_title : String
  rule_text : String
  section_title : String
  chapter_title : String
  start_char : Int
  end_char : Int
  text_length : Int
deriving DecidableEq, Repr, Inhabited

/-- Row of the rule_chunks table, carrying its joined parent rule
(models/database.py, class RuleChunk with the rule relationship). -/
structure RuleChunk where
  chunk_id : Int
  chunk_text : String
  chunk_char_start : Int
  chunk_char_end : Int
  embedding : Option (List ℚ)
  rule : Rule
deriving DecidableEq, Repr, Inhabited

/-- Request schema (schemas/requests.py, RetrieveRequest). -/
structure RetrieveRequest where
  query : String
  k : Nat
  distance_function : Option String
deriving DecidableEq, Repr, Inhabited

/-- Metadata block of a retrieval result (schemas/responses.py). -/
structure DocumentMetadata where
  file_name : String
  rule_number : Int
  rule_title : String
  section_title : String
  chapter_title : String
  start_char : Int
  end_char : Int
  text_length : Int
deriving DecidableEq, Repr, Inhabited

/-- One retrieval result row (schemas/responses.py, RetrieveResult). -/
structure RetrieveResult where
  text : String
  embedding : List ℚ
  metadata : DocumentMetadata
  similarity_score : ℚ
deriving DecidableEq, Repr, Inhabited

/-- Retrieval response (schemas/responses.py, RetrieveResponse). -/
structure RetrieveResponse where
  results : List RetrieveResult
  total_results : Nat
  query : String
  distance_function : String
deriving DecidableEq, Repr, Inhabited

/-- Ordering used to model a stable ascending sort by a numeric key:
strictly smaller key first, ties broken by original position.  Python's
stable sorted and the ORDER BY of the store both instantiate this. -/
def keyOrder (f : Nat → ℚ) (i j : Nat) : Prop :=
  f i < f j ∨ (f i = f j ∧ i ≤ j)

instance (f : Nat → ℚ) : DecidableRel (keyOrder f) := fun i j => by
  unfold keyOrder; exact inferInstance

instance (f : Nat → ℚ) : IsTotal Nat (keyOrder f) where
  total a b := by
    rcases lt_trichotomy (f a) (f b) with h | h | h
    · exact Or.inl (Or.inl h)
    · rcases Nat.le_total a b with hab | hab
      · exact Or.inl (Or.inr ⟨h, hab⟩)
      · exact Or.inr (Or.inr ⟨h.symm, hab⟩)
    · exact Or.inr (Or.inl h)

instance (f : Nat → ℚ) : IsTrans Nat (keyOrder f) where
  trans a b c hab hbc := by
    rcases hab with hab | ⟨hab, hab'⟩
    · rcases hbc with hbc | ⟨hbc, _⟩
      · exact Or.inl (hab.trans hbc)
      · exact Or.inl (hbc ▸ hab)
    · rcases hbc with hbc | ⟨hbc, hbc'⟩
      · exact Or.inl (hab ▸ hbc)
      · exact Or.inr ⟨hab.trans hbc, hab'.trans hbc'⟩

instance (f : Nat → ℚ) : IsAntisymm Nat (keyOrder f) where
  antisymm a b hab hba := by
    rcases hab with hab | ⟨heq, hab⟩
    · rcases hba with hba | ⟨hba, _⟩
      · exact absurd (hab.trans hba) (lt_irrefl _)
      · exact absurd hba (ne_of_gt hab)
    · rcases hba with hba | ⟨_, hba⟩
      · exact absurd hba (not_lt.mpr heq.le)
      · exact Nat.le_antisymm hab hba

/-- Indices 0..n-1 sorted ascending by key f, stably. -/
def sortIdx (f : Nat → ℚ) (n : Nat) : List Nat :=
  List.insertionSort (keyOrder f) (List.range n)

/-- Rank helper rrf of the source: ranked_list.index(idx), with the
except ValueError fallback returning len(ranked_list). -/
def rrf : List Nat → Nat → Nat
  | [], _ => 0
  | j :: rest, i => if j = i then 0 else rrf rest i + 1

/-- Result-accumulation loop shared by retrieve_chunks_rrf and
retrieve_rules_rrf: walk the fused ranking, skip an index whose key is
already in seen, append otherwise, and break once k results exist. -/
def dedupLoop (key : Nat → Int) (k : Nat) : List Nat → List Int → Nat → List Nat
  | [], _, _ => []
  | i :: rest, seen, cnt =>
    if key i ∈ seen then dedupLoop key k rest seen cnt
    else if k ≤ cnt + 1 then [i]
    else i :: dedupLoop key k rest (key i :: seen) (cnt + 1)

/-- First-occurrence filter: keep the first index of each key, in
order.  Reference formulation used to reason about dedupLoop. -/
def dedupFirst (key : Nat → Int) (seen : List Int) : List Nat → List Nat
  | [] => []
  | i :: rest =>
    if key i ∈ seen then dedupFirst key seen rest
    else i :: dedupFirst key (key i :: seen) rest

namespace BM25

/-- Default k1 parameter of BM25.__init__. -/
def k1 : ℚ := 3 / 2

/-- Default b parameter of BM25.__init__. -/
def b : ℚ := 3 / 4

/-- avgdl as set in __init__: sum(len(doc) for doc in corpus) / N when
N > 0, else 0. -/
def avgdl (corpus : List (List String)) : ℚ :=
  if 0 < corpus.length then
    (((corpus.map List.length).sum : Nat) : ℚ) / (corpus.length : ℚ)
  else 0

/-- Document frequency of a word: in how many documents it occurs
(the df counter of _initialize). -/
def df (corpus : List (List String)) (word : String) : Nat :=
  (corpus.filter (fun doc => word ∈ doc)).length

/-- idf as stored in self.idf, with the .get(word, 0) default for words
absent from every document; logf stands for math.log. -/
def idf (logf : ℚ → ℚ) (corpus : List (List String)) (word : String) : ℚ :=
  if 0 < df corpus word then
    logf (1 + ((corpus.length : ℚ) - (df corpus word : ℚ) + 1 / 2) /
      ((df corpus word : ℚ) + 1 / 2))
  else 0

/-- BM25 score of one document against a query: the inner loop of
get_scores, skipping query words absent from the document. -/
def score (logf : ℚ → ℚ) (corpus : List (List String))
    (doc : List String) (query : List String) : ℚ :=
  query.foldl (fun acc word =>
    if doc.count word = 0 then acc
    else
      acc + idf logf corpus word * ((doc.count word : ℚ) * (k1 + 1)) /
        ((doc.count word : ℚ) +
          k1 * (1 - b + b * (doc.length : ℚ) / avgdl corpus))) 0

/-- get_scores: one BM25 score per corpus document. -/
def get_scores (logf : ℚ → ℚ) (corpus : List (List String))
    (query : List String) : List ℚ :=
  corpus.map (fun doc => score logf corpus doc query)

end BM25

/-- Word splitting of Python str.split(): break a character list at
whitespace runs, dropping empty pieces (auxiliary of preprocess). -/
def words (acc : List Char) : List Char → List (List Char)
  | [] => if acc.isEmpty then [] else [acc.reverse]
  | c :: rest =>
    if c.isWhitespace then
      if acc.isEmpty then words [] rest else acc.reverse :: words [] rest
    else words (c :: acc) rest

/-- Python str.isalpha of a token: nonempty and entirely alphabetic. -/
def isalpha (w : List Char) : Bool := !w.isEmpty && w.all Char.isAlpha

/-- Local preprocess helper of the RRF entry points: lowercase, split on
whitespace, keep alphabetic tokens. -/
def preprocess (text : String) : List String :=
  ((words [] (text.toList.map Char.toLower)).filter isalpha).map
    (fun w => String.mk w)

/-- Distance expression built by _build_distance_query, evaluated on one
chunk embedding.  op models the pgvector operators of the store. -/
def distanceExpr (op : DistanceFunction → List ℚ → List ℚ → ℚ)
    (dfn : DistanceFunction) (e qe : List ℚ) : ℚ :=
  match dfn with
  | .cosine => 1 - op .cosine e qe
  | .l2 => op .l2 e qe
  | .inner_product => op .inner_product e qe * (-1)

/-- Chunks with a non-null embedding, in corpus order: the
WHERE rc.embedding IS NOT NULL filter of the SQL queries and the
.filter(RuleChunk.embedding != None) of the RRF entry points. -/
def eligible (db : List RuleChunk) : List RuleChunk :=
  db.filter (fun ch => ch.embedding.isSome)

/-- Parsed embedding of a chunk: _parse_embedding of a non-null stored
value yields its float list; a null one yields []. -/
def emb (ch : RuleChunk) : List ℚ := ch.embedding.getD []

/-- Chunk-level metadata as assembled in retrieve_documents: offsets are
the chunk's character span, text_length their difference. -/
def chunkMetadata (ch : RuleChunk) : DocumentMetadata :=
  { file_name := ch.rule.file
    rule_number := ch.rule.rule_number
    rule_title := ch.rule.rule_title
    section_title := ch.rule.section_title
    chapter_title := ch.rule.chapter_title
    start_char := ch.chunk_char_start
    end_char := ch.chunk_char_end
    text_length := ch.chunk_char_end - ch.chunk_char_start }

/-- Sort key of the ORDER BY clause: the similarity score itself for l2
(ASC) and its negation otherwise (DESC). -/
def sortKey (d : DistanceFunction) (sc : Nat → ℚ) : Nat → ℚ :=
  fun i => if d = .l2 then sc i else -(sc i)

/-- Body of retrieve_documents once the query embedding qe exists: score
every eligible chunk, ORDER BY similarity_score (ASC for l2, DESC
otherwise, ties by corpus order), LIMIT request.k. -/
def retrieve_documents_body (op : DistanceFunction → List ℚ → List ℚ → ℚ)
    (qe : List ℚ) (req : RetrieveRequest) (db : List RuleChunk)
    (dfn : Option DistanceFunction) : RetrieveResponse :=
  let d := dfn.getD .cosine
  let chs := eligible db
  let sc : Nat → ℚ := fun i => distanceExpr op d (emb (chs.getD i default)) qe
  let idxs := (sortIdx (sortKey d sc) chs.length).take req.k
  let results := idxs.map (fun i =>
    { text := (chs.getD i default).chunk_text
      embedding := emb (chs.getD i default)
      metadata := chunkMetadata (chs.getD i default)
      similarity_score := sc i : RetrieveResult })
  { results := results
    total_results := results.length
    query := req.query
    distance_function := d.value }

/-- retrieve_documents: a failed query encoding aborts the call with its
error, otherwise the body runs; enc models embedding_service.encode_to_list. -/
def retrieve_documents (op : DistanceFunction → List ℚ → List ℚ → ℚ)
    (enc : Except String (List ℚ)) (req : RetrieveRequest)
    (db : List RuleChunk) (dfn : Option DistanceFunction) :
    Except String RetrieveResponse :=
  match enc with
  | .error e => .error e
  | .ok qe => .ok (retrieve_documents_body op qe req db dfn)

/-- vector_k = min(max(request.k, 30), 20), exactly as in the source. -/
def vector_k (k : Nat) : Nat := min (max k 30) 20

/-- Inner request handed to retrieve_documents by the RRF entry points. -/
def vectorRequest (req : RetrieveRequest) : RetrieveRequest :=
  { query := req.query
    k := vector_k req.k
    distance_function := some (req.distance_function.getD "cosine") }

/-- Lookup in the chunk_id_to_idx dict built from enumerate(chunks); on
duplicate keys a Python dict keeps the last binding. -/
def chunk_id_to_idx (chs : List RuleChunk) (v : Int) : Option Nat :=
  ((chs.enum).filter (fun p => p.2.chunk_id = v)).getLast?.map (fun p => p.1)

/-- Vector-side candidate list fed into fusion: the rows returned by
retrieve_documents, mapped back to corpus indices through the
chunk_id_to_idx dict keyed — as in the source — on metadata.start_char,
dropping rows whose lookup misses. -/
def vector_ranked (op : DistanceFunction → List ℚ → List ℚ → ℚ)
    (qe : List ℚ) (req : RetrieveRequest) (db : List RuleChunk)
    (dfn : Option DistanceFunction) : List Nat :=
  (retrieve_documents_body op qe (vectorRequest req) db dfn).results.filterMap
    (fun r => chunk_id_to_idx (eligible db) r.metadata.start_char)

/-- Lexical candidate list: every corpus index, sorted descending by
BM25 score, ties by corpus order (Python sorted with reverse=True). -/
def bm25_ranked (logf : ℚ → ℚ) (db : List RuleChunk) (query : String) : List Nat :=
  let corpus := (eligible db).map (fun ch => preprocess ch.chunk_text)
  let scores := BM25.get_scores logf corpus (preprocess query)
  sortIdx (fun i => -(scores.getD i 0)) corpus.length

/-- Fused score of corpus index i: 1/(c + rank in the vector list)
+ 1/(c + rank in the lexical list), with rrf returning the list length
for an absent index. -/
def rrf_score (vRanked bmRanked : List Nat) (c : ℚ) (i : Nat) : ℚ :=
  1 / (c + (rrf vRanked i : ℚ)) + 1 / (c + (rrf bmRanked i : ℚ))

/-- Fused score function of one retrieve_chunks_rrf / retrieve_rules_rrf
call (the rrf_scores dict, as a function of the corpus index). -/
def rrfScoreOf (op : DistanceFunction → List ℚ → List ℚ → ℚ) (logf : ℚ → ℚ)
    (qe : List ℚ) (req : RetrieveRequest) (db : List RuleChunk)
    (dfn : Option DistanceFunction) (c : ℚ) : Nat → ℚ :=
  rrf_score (vector_ranked op qe req db dfn) (bm25_ranked logf db req.query) c

/-- top_rrf: all corpus indices sorted descending by fused score (ties
by corpus order), truncated to request.k * 2. -/
def top_rrf (op : DistanceFunction → List ℚ → List ℚ → ℚ) (logf : ℚ → ℚ)
    (qe : List ℚ) (req : RetrieveRequest) (db : List RuleChunk)
    (dfn : Option DistanceFunction) (c : ℚ) : List Nat :=
  (sortIdx (fun i => -(rrfScoreOf op logf qe req db dfn c i))
    (eligible db).length).take (req.k * 2)

/-- chunk_id of the i-th eligible chunk (ids[idx] in the source). -/
def chunkKey (chs : List RuleChunk) (i : Nat) : Int := (chs.getD i default).chunk_id

/-- rule_id of the i-th eligible chunk (chunk.rule_id in the source,
resolved through the join). -/
def ruleKey (chs : List RuleChunk) (i : Nat) : Int := (chs.getD i default).rule.rule_id

/-- Indices kept by the dedup loop of retrieve_chunks_rrf. -/
def chunksChosen (op : DistanceFunction → List ℚ → List ℚ → ℚ) (logf : ℚ → ℚ)
    (qe : List ℚ) (req : RetrieveRequest) (db : List RuleChunk)
    (dfn : Option DistanceFunction) (c : ℚ) : List Nat :=
  dedupLoop (chunkKey (eligible db)) req.k (top_rrf op logf qe req db dfn c) [] 0

/-- Indices kept by the dedup loop of retrieve_rules_rrf. -/
def rulesChosen (op : DistanceFunction → List ℚ → List ℚ → ℚ) (logf : ℚ → ℚ)
    (qe : List ℚ) (req : RetrieveRequest) (db : List RuleChunk)
    (dfn : Option DistanceFunction) (c : ℚ) : List Nat :=
  dedupLoop (ruleKey (eligible db)) req.k (top_rrf op logf qe req db dfn c) [] 0

/-- One chunk-level RRF result row. -/
def chunkRrfResult (ch : RuleChunk) (s : ℚ) : RetrieveResult :=
  { text := ch.chunk_text
    embedding := emb ch
    metadata := chunkMetadata ch
    similarity_score := s }

/-- Rule-level metadata as assembled in retrieve_rules_rrf: offsets and
text_length come from the parent rule row. -/
def ruleMetadata (ch : RuleChunk) : DocumentMetadata :=
  { file_name := ch.rule.file
    rule_number := ch.rule.rule_number
    rule_title := ch.rule.rule_title
    section_title := ch.rule.section_title
    chapter_title := ch.rule.chapter_title
    start_char := ch.rule.start_char
    end_char := ch.rule.end_char
    text_length := ch.rule.text_length }

/-- One rule-level RRF result row: full article text with the chunk's
embedding and fused score. -/
def ruleRrfResult (ch : RuleChunk) (s : ℚ) : RetrieveResult :=
  { text := ch.rule.rule_text
    embedding := emb ch
    metadata := ruleMetadata ch
    similarity_score := s }

/-- Body of retrieve_chunks_rrf once the inner vector call succeeded. -/
def retrieve_chunks_rrf_body (op : DistanceFunction → List ℚ → List ℚ → ℚ)
    (logf : ℚ → ℚ) (qe : List ℚ) (req : RetrieveRequest) (db : List RuleChunk)
    (dfn : Option DistanceFunction) (c : ℚ) : RetrieveResponse :=
  let chs := eligible db
  let chosen := chunksChosen op logf qe req db dfn c
  let results := chosen.map (fun i =>
    chunkRrfResult (chs.getD i default) (rrfScoreOf op logf qe req db dfn c i))
  { results := results
    total_results := results.length
    query := req.query
    distance_function := "rrf_bm25+vector" }

/-- retrieve_chunks_rrf: hybrid BM25+vector+RRF retrieval of unique
chunks; a failed query encoding aborts the whole call. -/
def retrieve_chunks_rrf (op : DistanceFunction → List ℚ → List ℚ → ℚ)
    (logf : ℚ → ℚ) (enc : Except String (List ℚ)) (req : RetrieveRequest)
    (db : List RuleChunk) (dfn : Option DistanceFunction) (c : ℚ) :
    Except String RetrieveResponse :=
  match enc with
  | .error e => .error e
  | .ok qe => .ok (retrieve_chunks_rrf_body op logf qe req db dfn c)

/-- Body of retrieve_rules_rrf once the inner vector call succeeded. -/
def retrieve_rules_rrf_body (op : DistanceFunction → List ℚ → List ℚ → ℚ)
    (logf : ℚ → ℚ) (qe : List ℚ) (req : RetrieveRequest) (db : List RuleChunk)
    (dfn : Option DistanceFunction) (c : ℚ) : RetrieveResponse :=
  let chs := eligible db
  let chosen := rulesChosen op logf qe req db dfn c
  let results := chosen.map (fun i =>
    ruleRrfResult (chs.getD i default) (rrfScoreOf op logf qe req db dfn c i))
  { results := results
    total_results := results.length
    query := req.query
    distance_function := "rrf_bm25+vector" }

/-- retrieve_rules_rrf: hybrid BM25+vector+RRF retrieval of unique
rules; a failed query encoding aborts the whole call. -/
def retrieve_rules_rrf (op : DistanceFunction → List ℚ → List ℚ → ℚ)
    (logf : ℚ → ℚ) (enc : Except String (List ℚ)) (req : RetrieveRequest)
    (db : List RuleChunk) (dfn : Option DistanceFunction) (c : ℚ) :
    Except String RetrieveResponse :=
  match enc with
  | .error e => .error e
  | .ok qe => .ok (retrieve_rules_rrf_body op logf qe req db dfn c)

/-- Fused-score formula of spec section 4.4, written from the spec for
comparison with rrf_score: 1-based ranks, and a list contributes no
term when the identifier is absent from it. -/
def specRrfScore (vRanked bmRanked : List Nat) (c : ℚ) (i : Nat) : ℚ :=
  (if i ∈ vRanked then 1 / (c + (rrf vRanked i : ℚ) + 1) else 0) +
  (if i ∈ bmRanked then 1 / (c + (rrf bmRanked i : ℚ) + 1) else 0)

/-- Sample instantiation of the external pgvector distance operators for
concrete corpora: difference of first coordinates. -/
def sampleOp : DistanceFunction → List ℚ → List ℚ → ℚ :=
  fun _ e qe => e.headD 0 - qe.headD 0

/-- Sample strictly monotone stand-in for math.log with slog 1 = 0,
used to instantiate logf on concrete corpora. -/
def slog : ℚ → ℚ := fun x => x - 1

/-- Concrete rule row used by the sample corpora. -/
def ruleOf (rid : Int) (txt : String) : Rule :=
  { rule_id := rid
    file := "f"
    rule_number := rid
    rule_title := "t"
    rule_text := txt
    section_title := "s"
    chapter_title := "c"
    start_char := 0
    end_char := 1
    text_length := 1 }

/-- Concrete chunk row used by the sample corpora. -/
def mkChunk (cid start : Int) (txt : String) (e : ℚ) (rid : Int) : RuleChunk :=
  { chunk_id := cid
    chunk_text := txt
    chunk_char_start := start
    chunk_char_end := start + 10
    embedding := some [e]
    rule := ruleOf rid txt }

/-- Three-fragment corpus of the spec's concrete scenario: with query
"law" and query embedding [0], the vector order is A, B, C and the
lexical order is B, C, A. -/
def dbABC : List RuleChunk :=
  [ mkChunk 1 1 "zzz yyy" 0 101,
    mkChunk 2 2 "law" 1 102,
    mkChunk 3 3 "law pad" 2 103 ]

/-- Request with k = 3 used on the three-fragment corpus. -/
def reqABC : RetrieveRequest := { query := "law", k := 3, distance_function := none }

/-- Single-chunk corpus whose chunk_id (7) differs from its
chunk_char_start (0). -/
def dbOne : List RuleChunk := [ mkChunk 7 0 "law" 0 201 ]

/-- Request with k = 1 used on the single-chunk corpus. -/
def reqOne : RetrieveRequest := { query := "law", k := 1, distance_function := none }

/-- Corpus of 100 chunks, all with a non-null embedding. -/
def dbBig : List RuleChunk :=
  (List.range 100).map (fun i => mkChunk (Int.ofNat i) (Int.ofNat i) "law" (i : ℚ) (Int.ofNat i))

/-- Request with k = 5 used on the 100-chunk corpus. -/
def reqFive : RetrieveRequest := { query := "law", k := 5, distance_function := none }

theorem sortIdx_perm (f : Nat → ℚ) (n : Nat) :
    List.Perm (sortIdx f n) (List.range n) :=
  List.perm_insertionSort _ _

theorem sortIdx_length (f : Nat → ℚ) (n : Nat) : (sortIdx f n).length = n := by
  rw [(sortIdx_perm f n).length_eq, List.length_range]

theorem sortIdx_sorted (f : Nat → ℚ) (n : Nat) :
    List.Sorted (keyOrder f) (sortIdx f n) :=
  List.sorted_insertionSort _ _

theorem mem_sortIdx {f : Nat → ℚ} {n i : Nat} : i ∈ sortIdx f n ↔ i < n := by
  rw [(sortIdx_perm f n).mem_iff, List.mem_range]

theorem keyOrder_le {f : Nat → ℚ} {i j : Nat} (h : keyOrder f i j) : f i ≤ f j := by
  rcases h with h | ⟨h, _⟩
  · exact h.le
  · exact h.le

theorem keyOrder_neg_le {s : Nat → ℚ} {i j : Nat}
    (h : keyOrder (fun t => -(s t)) i j) : s j ≤ s i := by
  have := keyOrder_le h
  simpa using this

theorem rrf_eq_length_of_not_mem {l : List Nat} {i : Nat} (h : i ∉ l) :
    rrf l i = l.length := by
  induction l with
  | nil => rfl
  | cons a rest ih =>
    rw [List.mem_cons, not_or] at h
    simp [rrf, Ne.symm h.1, ih h.2]

theorem rrf_lt_length_of_mem {l : List Nat} {i : Nat} (h : i ∈ l) :
    rrf l i < l.length := by
  induction l with
  | nil => cases h
  | cons a rest ih =>
    by_cases ha : a = i
    · simp [rrf, ha]
    · rcases List.mem_cons.mp h with h' | h'
      · exact absurd h'.symm ha
      · simpa [rrf, ha] using ih h'

theorem dedupLoop_eq_take (key : Nat → Int) (k : Nat) :
    ∀ (l : List Nat) (seen : List Int) (cnt : Nat), cnt < k →
      dedupLoop key k l seen cnt = (dedupFirst key seen l).take (k - cnt)
  | [], _, _, _ => by simp [dedupLoop, dedupFirst]
  | i :: rest, seen, cnt, h => by
    by_cases hmem : key i ∈ seen
    · simp only [dedupLoop, dedupFirst, if_pos hmem]
      exact dedupLoop_eq_take key k rest seen cnt h
    · simp only [dedupLoop, dedupFirst, if_neg hmem]
      by_cases hk : k ≤ cnt + 1
      · have h1 : k - cnt = 1 := by omega
        rw [if_pos hk, h1]
        simp
      · have hlt : cnt + 1 < k := by omega
        have h1 : k - cnt = (k - (cnt + 1)) + 1 := by omega
        rw [if_neg hk, h1, List.take_succ_cons,
          dedupLoop_eq_take key k rest (key i :: seen) (cnt + 1) hlt]

theorem dedupFirst_sublist (key : Nat → Int) :
    ∀ (seen : List Int) (l : List Nat), List.Sublist (dedupFirst key seen l) l
  | _, [] => List.Sublist.refl _
  | seen, i :: rest => by
    by_cases hmem : key i ∈ seen
    · simp only [dedupFirst, if_pos hmem]
      exact (dedupFirst_sublist key seen rest).cons i
    · simp only [dedupFirst, if_neg hmem]
      exact (dedupFirst_sublist key (key i :: seen) rest).cons₂ i

theorem mem_dedupFirst_imp (key : Nat → Int) :
    ∀ (seen : List Int) (l : List Nat) (i : Nat),
      i ∈ dedupFirst key seen l → i ∈ l ∧ key i ∉ seen
  | _, [], _, h => by cases h
  | seen, a :: rest, i, h => by
    by_cases hmem : key a ∈ seen
    · simp only [dedupFirst, if_pos hmem] at h
      have h2 := mem_dedupFirst_imp key seen rest i h
      exact ⟨List.mem_cons_of_mem a h2.1, h2.2⟩
    · simp only [dedupFirst, if_neg hmem] at h
      rcases List.mem_cons.mp h with h' | h'
      · subst h'
        exact ⟨List.mem_cons_self _ _, hmem⟩
      · have h2 := mem_dedupFirst_imp key (key a :: seen) rest i h'
        have hns : key i ∉ seen := fun hc => h2.2 (List.mem_cons_of_mem _ hc)
        exact ⟨List.mem_cons_of_mem a h2.1, hns⟩

theorem dedupFirst_keys_nodup (key : Nat → Int) :
    ∀ (seen : List Int) (l : List Nat), ((dedupFirst key seen l).map key).Nodup
  | _, [] => List.nodup_nil
  | seen, a :: rest => by
    by_cases hmem : key a ∈ seen
    · simp only [dedupFirst, if_pos hmem]
      exact dedupFirst_keys_nodup key seen rest
    · simp only [dedupFirst, if_neg hmem, List.map_cons, List.nodup_cons]
      refine ⟨fun hx => ?_, dedupFirst_keys_nodup key (key a :: seen) rest⟩
      rcases List.mem_map.mp hx with ⟨i, hi, hik⟩
      have h2 := (mem_dedupFirst_imp key (key a :: seen) rest i hi).2
      apply h2
      rw [hik]
      exact List.mem_cons_self _ _

theorem dedupFirst_max {f : Nat → ℚ} (key : Nat → Int) :
    ∀ (l : List Nat) (seen : List Int), List.Sorted (keyOrder f) l →
      ∀ i ∈ dedupFirst key seen l, ∀ j ∈ l, key j = key i → keyOrder f i j ∨ i = j
  | [], _, _, _, hi, _, hj, _ => by cases hj
  | a :: rest, seen, hs, i, hi, j, hj, hkey => by
    rw [List.sorted_cons] at hs
    by_cases hmem : key a ∈ seen
    · simp only [dedupFirst, if_pos hmem] at hi
      rcases List.mem_cons.mp hj with h' | h'
      · exfalso
        apply (mem_dedupFirst_imp key seen rest i hi).2
        have hia : key i = key a := by rw [← hkey, h']
        rw [hia]
        exact hmem
      · exact dedupFirst_max key rest seen hs.2 i hi j h' hkey
    · simp only [dedupFirst, if_neg hmem] at hi
      rcases List.mem_cons.mp hi with h' | h'
      · subst h'
        rcases List.mem_cons.mp hj with h' | h'
        · exact Or.inr h'.symm
        · exact Or.inl (hs.1 j h')
      · have hkin := (mem_dedupFirst_imp key (key a :: seen) rest i h').2
        rcases List.mem_cons.mp hj with h'' | h''
        · exfalso
          apply hkin
          have hia : key i = key a := by rw [← hkey, h'']
          rw [hia]
          exact List.mem_cons_self _ _
        · exact dedupFirst_max key rest (key a :: seen) hs.2 i h' j h'' hkey

theorem dedupFirst_covers (key : Nat → Int) :
    ∀ (l : List Nat) (seen : List Int) (j : Nat), j ∈ l →
      key j ∈ seen ∨ ∃ i ∈ dedupFirst key seen l, key i = key j
  | [], _, _, hj => by cases hj
  | a :: rest, seen, j, hj => by
    by_cases hmem : key a ∈ seen
    · simp only [dedupFirst, if_pos hmem]
      rcases List.mem_cons.mp hj with h' | h'
      · subst h'
        exact Or.inl hmem
      · exact dedupFirst_covers key rest seen j h'
    · simp only [dedupFirst, if_neg hmem]
      rcases List.mem_cons.mp hj with h' | h'
      · exact Or.inr ⟨a, List.mem_cons_self _ _, by rw [h']⟩
      · rcases dedupFirst_covers key rest (key a :: seen) j h' with h'' | ⟨i, hi, hik⟩
        · rcases List.mem_cons.mp h'' with h3 | h3
          · exact Or.inr ⟨a, List.mem_cons_self _ _, h3.symm⟩
          · exact Or.inl h3
        · exact Or.inr ⟨i, List.mem_cons_of_mem a hi, hik⟩

theorem getD_mem_of_lt {α : Type} {l : List α} {i : Nat} (d : α) (h : i < l.length) :
    l.getD i d ∈ l := by
  rw [List.getD_eq_getElem l d h]
  exact List.getElem_mem h

theorem sortKey_l2 (sc : Nat → ℚ) : sortKey .l2 sc = sc := by
  funext i
  simp [sortKey]

theorem sortKey_cosine (sc : Nat → ℚ) : sortKey .cosine sc = fun i => -(sc i) := by
  funext i
  simp [sortKey]

theorem vector_ranked_length_le (op : DistanceFunction → List ℚ → List ℚ → ℚ)
    (qe : List ℚ) (req : RetrieveRequest) (db : List RuleChunk)
    (dfn : Option DistanceFunction) :
    (vector_ranked op qe req db dfn).length ≤ vector_k req.k := by
  have h1 : (vector_ranked op qe req db dfn).length ≤
      (retrieve_documents_body op qe (vectorRequest req) db dfn).results.length :=
    List.length_filterMap_le _ _
  have h2 : (retrieve_documents_body op qe (vectorRequest req) db dfn).results.length ≤
      vector_k req.k := by
    simp only [retrieve_documents_body, List.length_map, List.length_take, vectorRequest]
    omega
  exact h1.trans h2

theorem bm25_ranked_length_eq (logf : ℚ → ℚ) (db : List RuleChunk) (q : String) :
    (bm25_ranked logf db q).length = (eligible db).length := by
  simp only [bm25_ranked, sortIdx_length, List.length_map]

theorem top_rrf_sorted (op : DistanceFunction → List ℚ → List ℚ → ℚ) (logf : ℚ → ℚ)
    (qe : List ℚ) (req : RetrieveRequest) (db : List RuleChunk)
    (dfn : Option DistanceFunction) (c : ℚ) :
    List.Sorted (keyOrder (fun i => -(rrfScoreOf op logf qe req db dfn c i)))
      (top_rrf op logf qe req db dfn c) := by
  unfold top_rrf
  exact List.Pairwise.sublist (List.take_sublist _ _) (sortIdx_sorted _ _)

theorem mem_top_rrf_lt {op : DistanceFunction → List ℚ → List ℚ → ℚ} {logf : ℚ → ℚ}
    {qe : List ℚ} {req : RetrieveRequest} {db : List RuleChunk}
    {dfn : Option DistanceFunction} {c : ℚ} {i : Nat}
    (h : i ∈ top_rrf op logf qe req db dfn c) : i < (eligible db).length := by
  unfold top_rrf at h
  exact mem_sortIdx.mp ((List.take_sublist _ _).subset h)

theorem rulesChosen_eq_take (op : DistanceFunction → List ℚ → List ℚ → ℚ) (logf : ℚ → ℚ)
    (qe : List ℚ) (req : RetrieveRequest) (db : List RuleChunk)
    (dfn : Option DistanceFunction) (c : ℚ) (hk : 1 ≤ req.k) :
    rulesChosen op logf qe req db dfn c =
      (dedupFirst (ruleKey (eligible db)) [] (top_rrf op logf qe req db dfn c)).take req.k := by
  unfold rulesChosen
  have h := dedupLoop_eq_take (ruleKey (eligible db)) req.k
    (top_rrf op logf qe req db dfn c) [] 0 (by omega)
  simpa using h

theorem sortIdx_three {f : Nat → ℚ} {a b c : Nat}
    (hperm : List.Perm [a, b, c] (List.range 3))
    (hab : f a < f b) (hbc : f b < f c) (hac : f a < f c) :
    sortIdx f 3 = [a, b, c] := by
  apply List.eq_of_perm_of_sorted ((sortIdx_perm f 3).trans hperm.symm)
    (sortIdx_sorted f 3)
  rw [List.sorted_cons, List.sorted_cons]
  refine ⟨?_, ?_, List.sorted_singleton _⟩
  · intro x hx
    rcases List.mem_cons.mp hx with rfl | hx
    · exact Or.inl hab
    · rcases List.mem_singleton.mp hx with rfl
      exact Or.inl hac
  · intro x hx
    rcases List.mem_singleton.mp hx with rfl
    exact Or.inl hbc

theorem vector_ranked_dbOne : vector_ranked sampleOp [0] reqOne dbOne none = [] := by
  decide

theorem bm25_ranked_dbOne : bm25_ranked slog dbOne reqOne.query = [0] := by
  decide

theorem rrfScoreOf_dbOne :
    rrfScoreOf sampleOp slog [0] reqOne dbOne none 60 0 = 1 / 60 + 1 / 60 := by
  simp only [rrfScoreOf, vector_ranked_dbOne, bm25_ranked_dbOne]
  norm_num [rrf_score, rrf]

theorem chunksChosen_dbOne : chunksChosen sampleOp slog [0] reqOne dbOne none 60 = [0] := by
  decide

/-- C1: counterexample.  On a one-fragment corpus the code's fused score
is 1/60 + 1/60 — the empty vector list still contributes a term through
the rank-equals-length fallback, and the lexical rank is 0-based — while
the spec formula (sum only over lists containing the id, 1-based ranks)
applied to the very candidate lists the code built yields 1/61. -/
theorem rrf_fusion_not_omitted :
    vector_ranked sampleOp [0] reqOne dbOne none = [] ∧
    bm25_ranked slog dbOne reqOne.query = [0] ∧
    (retrieve_chunks_rrf_body sampleOp slog [0] reqOne dbOne none 60).results.map
      (fun r => r.similarity_score) = [1 / 60 + 1 / 60] ∧
    specRrfScore (vector_ranked sampleOp [0] reqOne dbOne none)
      (bm25_ranked slog dbOne reqOne.query) 60 0 = 1 / 61 ∧
    (1 / 60 + 1 / 60 : ℚ) ≠ (1 / 61 : ℚ) := by
  refine ⟨vector_ranked_dbOne, bm25_ranked_dbOne, ?_, ?_, by norm_num⟩
  · simp only [retrieve_chunks_rrf_body, chunksChosen_dbOne, List.map_cons, List.map_nil,
      chunkRrfResult, rrfScoreOf_dbOne]
  · simp only [vector_ranked_dbOne, bm25_ranked_dbOne, specRrfScore]
    norm_num [rrf]

/-- C1: amended.  Every fused score output by retrieve_chunks_rrf has
the form 1/(c + rv) + 1/(c + rl) with rv, rl the 0-based ranks of the
fragment in the vector and lexical candidate lists; a fragment absent
from a list is not omitted from the sum but ranked at that list's
length, so the list still contributes a 1/(c + length) term, while a
present fragment's rank is strictly below the length. -/
theorem rrf_fusion_score_shape (op : DistanceFunction → List ℚ → List ℚ → ℚ)
    (logf : ℚ → ℚ) (qe : List ℚ) (req : RetrieveRequest) (db : List RuleChunk)
    (dfn : Option DistanceFunction) (c : ℚ) :
    ((retrieve_chunks_rrf_body op logf qe req db dfn c).results.map
      (fun r => r.similarity_score) =
      (chunksChosen op logf qe req db dfn c).map
        (rrfScoreOf op logf qe req db dfn c)) ∧
    (∀ i, i ∉ vector_ranked op qe req db dfn →
      rrfScoreOf op logf qe req db dfn c i =
        1 / (c + ((vector_ranked op qe req db dfn).length : ℚ)) +
          1 / (c + (rrf (bm25_ranked logf db req.query) i : ℚ))) ∧
    (∀ i, i ∈ vector_ranked op qe req db dfn →
      rrf (vector_ranked op qe req db dfn) i <
        (vector_ranked op qe req db dfn).length) := by
  refine ⟨?_, ?_, ?_⟩
  · simp only [retrieve_chunks_rrf_body, List.map_map]
    rfl
  · intro i hi
    simp only [rrfScoreOf, rrf_score, rrf_eq_length_of_not_mem hi]
  · intro i hi
    exact rrf_lt_length_of_mem hi

/-- Witness for the amended C1 theorem at the one-fragment corpus. -/
theorem rrf_fusion_score_shape_witness :
    (0 ∉ vector_ranked sampleOp [0] reqOne dbOne none) ∧
    rrfScoreOf sampleOp slog [0] reqOne dbOne none 60 0 =
      1 / (60 + ((vector_ranked sampleOp [0] reqOne dbOne none).length : ℚ)) +
        1 / (60 + (rrf (bm25_ranked slog dbOne reqOne.query) 0 : ℚ)) :=
  ⟨by decide,
    (rrf_fusion_score_shape sampleOp slog [0] reqOne dbOne none 60).2.1 0 (by decide)⟩

theorem vector_ranked_ABC : vector_ranked sampleOp [0] reqABC dbABC none = [0, 1, 2] := by
  have helig : eligible dbABC = dbABC := rfl
  have hlen : dbABC.length = 3 := rfl
  have hvk : vector_k reqABC.k = 20 := rfl
  have he0 : dbABC.getD 0 default = mkChunk 1 1 "zzz yyy" 0 101 := rfl
  have he1 : dbABC.getD 1 default = mkChunk 2 2 "law" 1 102 := rfl
  have he2 : dbABC.getD 2 default = mkChunk 3 3 "law pad" 2 103 := rfl
  have hf : sortIdx (fun i =>
      -(distanceExpr sampleOp DistanceFunction.cosine (emb (dbABC.getD i default)) [0])) 3 =
      [0, 1, 2] :=
    sortIdx_three (by decide)
      (by simp only [he0, he1]; norm_num [distanceExpr, sampleOp, emb, mkChunk, ruleOf])
      (by simp only [he1, he2]; norm_num [distanceExpr, sampleOp, emb, mkChunk, ruleOf])
      (by simp only [he0, he2]; norm_num [distanceExpr, sampleOp, emb, mkChunk, ruleOf])
  simp only [vector_ranked, retrieve_documents_body, vectorRequest, Option.getD, helig,
    hlen, hvk, sortKey_cosine, hf]
  decide

theorem bm25_ranked_ABC : bm25_ranked slog dbABC reqABC.query = [1, 2, 0] := by
  have hcorp : (eligible dbABC).map (fun ch => preprocess ch.chunk_text) =
      [["zzz", "yyy"], ["law"], ["law", "pad"]] := by decide
  have hq : preprocess reqABC.query = ["law"] := by decide
  have hc0 : List.count "law" ["zzz", "yyy"] = 0 := by decide
  have hc1 : List.count "law" ["law"] = 1 := by decide
  have hc2 : List.count "law" ["law", "pad"] = 1 := by decide
  have hdf : BM25.df [["zzz", "yyy"], ["law"], ["law", "pad"]] "law" = 2 := by decide
  have hsc : BM25.get_scores slog [["zzz", "yyy"], ["law"], ["law", "pad"]] ["law"] =
      [0, 30 / 41, 60 / 109] := by
    simp only [BM25.get_scores, List.map_cons, List.map_nil, BM25.score, List.foldl_cons,
      List.foldl_nil, hc0, hc1, hc2, BM25.idf, hdf, BM25.avgdl, BM25.k1, BM25.b, slog]
    norm_num
  have hclen : ([["zzz", "yyy"], ["law"], ["law", "pad"]] : List (List String)).length = 3 := rfl
  have hg0 : (([0, 30 / 41, 60 / 109] : List ℚ)).getD 0 0 = 0 := rfl
  have hg1 : (([0, 30 / 41, 60 / 109] : List ℚ)).getD 1 0 = 30 / 41 := rfl
  have hg2 : (([0, 30 / 41, 60 / 109] : List ℚ)).getD 2 0 = 60 / 109 := rfl
  have hf : sortIdx (fun i => -(([0, 30 / 41, 60 / 109] : List ℚ).getD i 0)) 3 = [1, 2, 0] :=
    sortIdx_three (by decide)
      (by simp only [hg1, hg2]; norm_num)
      (by simp only [hg2, hg0]; norm_num)
      (by simp only [hg1, hg0]; norm_num)
  simp only [bm25_ranked, hcorp, hq, hsc, hclen, hf]

theorem rrfScoreOf_ABC0 :
    rrfScoreOf sampleOp slog [0] reqABC dbABC none 60 0 = 1 / 60 + 1 / 62 := by
  simp only [rrfScoreOf, vector_ranked_ABC, bm25_ranked_ABC]
  norm_num [rrf_score, rrf]

theorem rrfScoreOf_ABC1 :
    rrfScoreOf sampleOp slog [0] reqABC dbABC none 60 1 = 1 / 61 + 1 / 60 := by
  simp only [rrfScoreOf, vector_ranked_ABC, bm25_ranked_ABC]
  norm_num [rrf_score, rrf]

theorem rrfScoreOf_ABC2 :
    rrfScoreOf sampleOp slog [0] reqABC dbABC none 60 2 = 1 / 62 + 1 / 61 := by
  simp only [rrfScoreOf, vector_ranked_ABC, bm25_ranked_ABC]
  norm_num [rrf_score, rrf]

theorem top_rrf_ABC : top_rrf sampleOp slog [0] reqABC dbABC none 60 = [1, 0, 2] := by
  have helig : eligible dbABC = dbABC := rfl
  have hlen : dbABC.length = 3 := rfl
  have hf : sortIdx (fun i => -(rrfScoreOf sampleOp slog [0] reqABC dbABC none 60 i)) 3 =
      [1, 0, 2] :=
    sortIdx_three (by decide)
      (by norm_num [rrfScoreOf_ABC1, rrfScoreOf_ABC0])
      (by norm_num [rrfScoreOf_ABC0, rrfScoreOf_ABC2])
      (by norm_num [rrfScoreOf_ABC1, rrfScoreOf_ABC2])
  simp only [top_rrf, helig, hlen, hf]
  decide

theorem chunksChosen_ABC :
    chunksChosen sampleOp slog [0] reqABC dbABC none 60 = [1, 0, 2] := by
  simp only [chunksChosen, top_rrf_ABC]
  decide

/-- C2: counterexample.  On the spec's own three-fragment scenario
(vector order A, B, C as indices 0, 1, 2; lexical order B, C, A) with
c = 60 the fused output order is B, A, C as the spec expects, but the
fused scores are built from 0-based ranks: B receives 1/61 + 1/60,
not the spec's 1/62 + 1/61 (and likewise A and C). -/
theorem concrete_scenario_scores :
    vector_ranked sampleOp [0] reqABC dbABC none = [0, 1, 2] ∧
    bm25_ranked slog dbABC reqABC.query = [1, 2, 0] ∧
    (retrieve_chunks_rrf_body sampleOp slog [0] reqABC dbABC none 60).results.map
      (fun r => (r.text, r.similarity_score)) =
      [("law", 1 / 61 + 1 / 60), ("zzz yyy", 1 / 60 + 1 / 62),
       ("law pad", 1 / 62 + 1 / 61)] ∧
    (1 / 61 + 1 / 60 : ℚ) ≠ 1 / 62 + 1 / 61 := by
  refine ⟨vector_ranked_ABC, bm25_ranked_ABC, ?_, by norm_num⟩
  have he0 : (eligible dbABC).getD 0 default = mkChunk 1 1 "zzz yyy" 0 101 := rfl
  have he1 : (eligible dbABC).getD 1 default = mkChunk 2 2 "law" 1 102 := rfl
  have he2 : (eligible dbABC).getD 2 default = mkChunk 3 3 "law pad" 2 103 := rfl
  simp only [retrieve_chunks_rrf_body, chunksChosen_ABC, List.map_cons, List.map_nil,
    chunkRrfResult, he0, he1, he2, rrfScoreOf_ABC0, rrfScoreOf_ABC1, rrfScoreOf_ABC2,
    mkChunk, ruleOf]

/-- C2: amended.  Whenever a three-fragment corpus makes the vector
candidate list rank the fragments [A, B, C] (corpus indices 0, 1, 2) and
the lexical candidate list rank them [B, C, A], and the fragments have
pairwise distinct chunk ids, the fusion stage with c = 60 uses 0-based
ranks: score(A) = 1/60 + 1/62, score(B) = 1/61 + 1/60,
score(C) = 1/62 + 1/61, and the fused output order is B, A, C. -/
theorem concrete_scenario_fused_order (op : DistanceFunction → List ℚ → List ℚ → ℚ)
    (logf : ℚ → ℚ) (qe : List ℚ) (req : RetrieveRequest) (db : List RuleChunk)
    (dfn : Option DistanceFunction)
    (hv : vector_ranked op qe req db dfn = [0, 1, 2])
    (hb : bm25_ranked logf db req.query = [1, 2, 0])
    (hn : (eligible db).length = 3)
    (hk : req.k = 3)
    (h01 : chunkKey (eligible db) 0 ≠ chunkKey (eligible db) 1)
    (h02 : chunkKey (eligible db) 0 ≠ chunkKey (eligible db) 2)
    (h12 : chunkKey (eligible db) 1 ≠ chunkKey (eligible db) 2) :
    rrfScoreOf op logf qe req db dfn 60 0 = 1 / 60 + 1 / 62 ∧
    rrfScoreOf op logf qe req db dfn 60 1 = 1 / 61 + 1 / 60 ∧
    rrfScoreOf op logf qe req db dfn 60 2 = 1 / 62 + 1 / 61 ∧
    chunksChosen op logf qe req db dfn 60 = [1, 0, 2] ∧
    (retrieve_chunks_rrf_body op logf qe req db dfn 60).results.map (fun r => r.text) =
      [((eligible db).getD 1 default).chunk_text,
       ((eligible db).getD 0 default).chunk_text,
       ((eligible db).getD 2 default).chunk_text] := by
  have hs0 : rrfScoreOf op logf qe req db dfn 60 0 = 1 / 60 + 1 / 62 := by
    simp only [rrfScoreOf, hv, hb]
    norm_num [rrf_score, rrf]
  have hs1 : rrfScoreOf op logf qe req db dfn 60 1 = 1 / 61 + 1 / 60 := by
    simp only [rrfScoreOf, hv, hb]
    norm_num [rrf_score, rrf]
  have hs2 : rrfScoreOf op logf qe req db dfn 60 2 = 1 / 62 + 1 / 61 := by
    simp only [rrfScoreOf, hv, hb]
    norm_num [rrf_score, rrf]
  have htop : top_rrf op logf qe req db dfn 60 = [1, 0, 2] := by
    have hf : sortIdx (fun i => -(rrfScoreOf op logf qe req db dfn 60 i)) 3 = [1, 0, 2] :=
      sortIdx_three (by decide)
        (by norm_num [hs1, hs0])
        (by norm_num [hs0, hs2])
        (by norm_num [hs1, hs2])
    simp only [top_rrf, hn, hk, hf]
    decide
  have hchosen : chunksChosen op logf qe req db dfn 60 = [1, 0, 2] := by
    simp only [chunksChosen, htop, hk]
    simp [dedupLoop, h01, Ne.symm h02, Ne.symm h12]
  refine ⟨hs0, hs1, hs2, hchosen, ?_⟩
  simp only [retrieve_chunks_rrf_body, hchosen, List.map_cons, List.map_nil, chunkRrfResult]

/-- Witness for the amended C2 theorem at the three-fragment corpus. -/
theorem concrete_scenario_fused_order_witness :
    vector_ranked sampleOp [0] reqABC dbABC none = [0, 1, 2] ∧
    bm25_ranked slog dbABC reqABC.query = [1, 2, 0] ∧
    (rrfScoreOf sampleOp slog [0] reqABC dbABC none 60 0 = 1 / 60 + 1 / 62 ∧
     rrfScoreOf sampleOp slog [0] reqABC dbABC none 60 1 = 1 / 61 + 1 / 60 ∧
     rrfScoreOf sampleOp slog [0] reqABC dbABC none 60 2 = 1 / 62 + 1 / 61 ∧
     chunksChosen sampleOp slog [0] reqABC dbABC none 60 = [1, 0, 2] ∧
     (retrieve_chunks_rrf_body sampleOp slog [0] reqABC dbABC none 60).results.map
       (fun r => r.text) =
       [((eligible dbABC).getD 1 default).chunk_text,
        ((eligible dbABC).getD 0 default).chunk_text,
        ((eligible dbABC).getD 2 default).chunk_text]) :=
  ⟨vector_ranked_ABC, bm25_ranked_ABC,
    concrete_scenario_fused_order sampleOp slog [0] reqABC dbABC none
      vector_ranked_ABC bm25_ranked_ABC rfl rfl (by decide) (by decide) (by decide)⟩

/-- C3: counterexample.  With k = 5 on a corpus of 100 eligible
fragments, the vector candidate list fed to fusion holds fewer than 100
identifiers: its size is capped by vector_k = min(max(k,30),20) = 20,
so the spec's max(100, 10k) oversampling floor fails. -/
theorem vector_candidates_capped :
    (eligible dbBig).length = 100 ∧
    ¬ (100 ≤ (vector_ranked sampleOp [0] reqFive dbBig none).length) := by
  constructor
  · decide
  · intro hle
    have h := vector_ranked_length_le sampleOp [0] reqFive dbBig none
    have hvk : vector_k reqFive.k = 20 := rfl
    omega

/-- C3: amended.  The lexical candidate list always holds every eligible
fragment (the BM25 ranking is never truncated), while the vector
candidate list holds at most vector_k k = min(max(k,30),20) = 20
identifiers regardless of k; no max(100, 10k) floor exists. -/
theorem candidate_list_sizes (op : DistanceFunction → List ℚ → List ℚ → ℚ)
    (logf : ℚ → ℚ) (qe : List ℚ) (req : RetrieveRequest) (db : List RuleChunk)
    (dfn : Option DistanceFunction) :
    (bm25_ranked logf db req.query).length = (eligible db).length ∧
    (vector_ranked op qe req db dfn).length ≤ 20 ∧
    vector_k req.k = 20 := by
  have hvk : vector_k req.k = 20 := by
    unfold vector_k
    omega
  refine ⟨bm25_ranked_length_eq logf db req.query, ?_, hvk⟩
  have h := vector_ranked_length_le op qe req db dfn
  omega

/-- C4: the single eligible fragment (chunk_id 7, chunk_char_start 0) is
returned by the vector search as its one nearest row, yet the vector
candidate list used in fusion is empty: the source looks the row up in
the chunk_id_to_idx dict through metadata.start_char (the offset 0)
instead of its chunk id, and the lookup misses. -/
theorem vector_join_start_char_mismatch :
    (retrieve_documents_body sampleOp [0] (vectorRequest reqOne) dbOne none).results.length
      = 1 ∧
    (eligible dbOne).length = 1 ∧
    vector_ranked sampleOp [0] reqOne dbOne none = [] := by
  decide

/-- C9: a query-encoder failure aborts retrieve_documents and both RRF
entry points with the same error; no lexical-only response is ever
produced as a fallback. -/
theorem encoder_failure_propagates (op : DistanceFunction → List ℚ → List ℚ → ℚ)
    (logf : ℚ → ℚ) (e : String) (req : RetrieveRequest) (db : List RuleChunk)
    (dfn : Option DistanceFunction) (c : ℚ) :
    retrieve_documents op (.error e) req db dfn = .error e ∧
    retrieve_chunks_rrf op logf (.error e) req db dfn c = .error e ∧
    retrieve_rules_rrf op logf (.error e) req db dfn c = .error e :=
  ⟨rfl, rfl, rfl⟩

/-- C8: a corpus that is empty or whose fragments all have a null
embedding yields, for a successfully encoded query, a successful
response with no results and total_results = 0, for both chunk-level and
rule-level RRF retrieval. -/
theorem empty_corpus_empty_response (op : DistanceFunction → List ℚ → List ℚ → ℚ)
    (logf : ℚ → ℚ) (qe : List ℚ) (req : RetrieveRequest) (db : List RuleChunk)
    (dfn : Option DistanceFunction) (c : ℚ)
    (h : ∀ ch ∈ db, ch.embedding = none) :
    retrieve_chunks_rrf op logf (.ok qe) req db dfn c =
      .ok { results := [], total_results := 0, query := req.query,
            distance_function := "rrf_bm25+vector" } ∧
    retrieve_rules_rrf op logf (.ok qe) req db dfn c =
      .ok { results := [], total_results := 0, query := req.query,
            distance_function := "rrf_bm25+vector" } := by
  have helig : eligible db = [] := by
    rw [eligible, List.filter_eq_nil_iff]
    intro ch hch
    simp [h ch hch]
  have hW : top_rrf op logf qe req db dfn c = [] := by
    simp [top_rrf, helig, sortIdx]
  constructor
  · simp [retrieve_chunks_rrf, retrieve_chunks_rrf_body, chunksChosen, hW, dedupLoop]
  · simp [retrieve_rules_rrf, retrieve_rules_rrf_body, rulesChosen, hW, dedupLoop]

/-- Witness for the C8 theorem at the empty corpus. -/
theorem empty_corpus_empty_response_witness :
    (∀ ch ∈ ([] : List RuleChunk), ch.embedding = none) ∧
    retrieve_chunks_rrf sampleOp slog (.ok [0]) reqOne [] none 60 =
      .ok { results := [], total_results := 0, query := reqOne.query,
            distance_function := "rrf_bm25+vector" } ∧
    retrieve_rules_rrf sampleOp slog (.ok [0]) reqOne [] none 60 =
      .ok { results := [], total_results := 0, query := reqOne.query,
            distance_function := "rrf_bm25+vector" } :=
  ⟨by simp,
    (empty_corpus_empty_response sampleOp slog [0] reqOne [] none 60 (by simp)).1,
    (empty_corpus_empty_response sampleOp slog [0] reqOne [] none 60 (by simp)).2⟩

/-- C10: BM25 never divides by zero.  The empty corpus yields an empty
score list without evaluating any division, and whenever a query word
occurs in a document — the only case in which get_scores evaluates
dl / avgdl — the average document length is strictly positive. -/
theorem bm25_no_division_by_zero :
    (∀ (logf : ℚ → ℚ) (query : List String), BM25.get_scores logf [] query = []) ∧
    (∀ (corpus : List (List String)) (i : Nat) (word : String),
      0 < (corpus.getD i []).count word → 0 < BM25.avgdl corpus) := by
  constructor
  · intro logf query
    rfl
  · intro corpus i word h
    have hi : i < corpus.length := by
      by_contra hge
      push_neg at hge
      rw [List.getD_eq_default _ _ hge] at h
      simp at h
    have hmem : (corpus.getD i []) ∈ corpus := getD_mem_of_lt _ hi
    have hpos : 0 < (corpus.getD i []).length :=
      lt_of_lt_of_le h (List.count_le_length _ _)
    have hsum : 1 ≤ (corpus.map List.length).sum := by
      have hlm : (corpus.getD i []).length ∈ corpus.map List.length :=
        List.mem_map_of_mem _ hmem
      calc 1 ≤ (corpus.getD i []).length := hpos
        _ ≤ (corpus.map List.length).sum :=
          List.single_le_sum (fun x _ => Nat.zero_le x) _ hlm
    have hn : 0 < corpus.length := Nat.lt_of_le_of_lt (Nat.zero_le i) hi
    rw [BM25.avgdl, if_pos hn]
    apply div_pos
    · exact_mod_cast Nat.lt_of_lt_of_le Nat.zero_lt_one hsum
    · exact_mod_cast hn

/-- Witness for the C10 theorem at a one-document corpus. -/
theorem bm25_no_division_by_zero_witness :
    0 < (([["a"]] : List (List String)).getD 0 []).count "a" ∧
    0 < BM25.avgdl [["a"]] :=
  ⟨by decide, bm25_no_division_by_zero.2 [["a"]] 0 "a" (by decide)⟩

theorem sorted_map_score_take {f : Nat → ℚ} (n k : Nat) :
    (((sortIdx f n).take k).map f).Sorted (fun a b => a ≤ b) := by
  have hs : List.Sorted (keyOrder f) ((sortIdx f n).take k) :=
    List.Pairwise.sublist (List.take_sublist _ _) (sortIdx_sorted f n)
  exact List.Pairwise.map f (fun a b h => keyOrder_le h) hs

theorem sorted_map_score_take_neg {s : Nat → ℚ} (n k : Nat) :
    (((sortIdx (fun i => -(s i)) n).take k).map s).Sorted (fun a b => b ≤ a) := by
  have hs : List.Sorted (keyOrder (fun i => -(s i))) ((sortIdx (fun i => -(s i)) n).take k) :=
    List.Pairwise.sublist (List.take_sublist _ _) (sortIdx_sorted _ n)
  exact List.Pairwise.map s (fun a b h => keyOrder_neg_le h) hs

/-- C6: the rule_ids of the fragments kept by retrieve_rules_rrf contain
no duplicates, and at most k results are returned. -/
theorem rule_results_unique_bounded (op : DistanceFunction → List ℚ → List ℚ → ℚ)
    (logf : ℚ → ℚ) (qe : List ℚ) (req : RetrieveRequest) (db : List RuleChunk)
    (dfn : Option DistanceFunction) (c : ℚ) :
    ((rulesChosen op logf qe req db dfn c).map (ruleKey (eligible db))).Nodup ∧
    (retrieve_rules_rrf_body op logf qe req db dfn c).results.length ≤ req.k := by
  by_cases hk : req.k = 0
  · have hW : top_rrf op logf qe req db dfn c = [] := by
      simp [top_rrf, hk]
    have hO : rulesChosen op logf qe req db dfn c = [] := by
      simp [rulesChosen, hW, dedupLoop]
    constructor
    · simp [hO]
    · simp [retrieve_rules_rrf_body, hO, hk]
  · have hk1 : 1 ≤ req.k := Nat.one_le_iff_ne_zero.mpr hk
    have hO := rulesChosen_eq_take op logf qe req db dfn c hk1
    constructor
    · rw [hO]
      have hnd := dedupFirst_keys_nodup (ruleKey (eligible db)) []
        (top_rrf op logf qe req db dfn c)
      exact List.Nodup.sublist (List.Sublist.map _ (List.take_sublist _ _)) hnd
    · simp only [retrieve_rules_rrf_body, List.length_map, hO]
      exact List.length_take_le _ _

/-- C5: semantics of the rule aggregation stage of retrieve_rules_rrf.
Every kept fragment lies in the window of the top 2k fused fragments;
its fused score dominates every same-rule fragment of that window (only
the best-scoring fragment of each rule group is kept); the output is
ordered descending by fused score and truncated to k; and when fewer
than k results are returned, every rule of the window is already
represented — no backfill happens. -/
theorem rule_aggregation_semantics (op : DistanceFunction → List ℚ → List ℚ → ℚ)
    (logf : ℚ → ℚ) (qe : List ℚ) (req : RetrieveRequest) (db : List RuleChunk)
    (dfn : Option DistanceFunction) (c : ℚ) :
    (top_rrf op logf qe req db dfn c).length =
      min (req.k * 2) (eligible db).length ∧
    (∀ i ∈ rulesChosen op logf qe req db dfn c, i ∈ top_rrf op logf qe req db dfn c) ∧
    (∀ i ∈ rulesChosen op logf qe req db dfn c,
      ∀ j ∈ top_rrf op logf qe req db dfn c,
        ruleKey (eligible db) j = ruleKey (eligible db) i →
          rrfScoreOf op logf qe req db dfn c j ≤ rrfScoreOf op logf qe req db dfn c i) ∧
    ((retrieve_rules_rrf_body op logf qe req db dfn c).results.map
      (fun r => r.similarity_score)).Sorted (fun a b => b ≤ a) ∧
    (retrieve_rules_rrf_body op logf qe req db dfn c).results.length ≤ req.k ∧
    (req.k ≤ (rulesChosen op logf qe req db dfn c).length ∨
      ∀ j ∈ top_rrf op logf qe req db dfn c,
        ∃ i ∈ rulesChosen op logf qe req db dfn c,
          ruleKey (eligible db) i = ruleKey (eligible db) j) := by
  have hwin : (top_rrf op logf qe req db dfn c).length =
      min (req.k * 2) (eligible db).length := by
    simp [top_rrf, List.length_take, sortIdx_length]
  refine ⟨hwin, ?_⟩
  by_cases hk : req.k = 0
  · have hW : top_rrf op logf qe req db dfn c = [] := by
      simp [top_rrf, hk]
    have hO : rulesChosen op logf qe req db dfn c = [] := by
      simp [rulesChosen, hW, dedupLoop]
    refine ⟨by simp [hO], by simp [hO], ?_, ?_, Or.inr ?_⟩
    · simp [retrieve_rules_rrf_body, hO]
    · simp [retrieve_rules_rrf_body, hO]
    · simp [hW]
  · have hk1 : 1 ≤ req.k := Nat.one_le_iff_ne_zero.mpr hk
    have hO := rulesChosen_eq_take op logf qe req db dfn c hk1
    have hsub : List.Sublist (rulesChosen op logf qe req db dfn c)
        (top_rrf op logf qe req db dfn c) := by
      rw [hO]
      exact (List.take_sublist _ _).trans (dedupFirst_sublist _ _ _)
    have hsorted := top_rrf_sorted op logf qe req db dfn c
    refine ⟨fun i hi => hsub.subset hi, ?_, ?_, ?_, ?_⟩
    · intro i hi j hj hkey
      have hiD : i ∈ dedupFirst (ruleKey (eligible db)) []
          (top_rrf op logf qe req db dfn c) := by
        rw [hO] at hi
        exact (List.take_sublist _ _).subset hi
      rcases dedupFirst_max (ruleKey (eligible db)) (top_rrf op logf qe req db dfn c)
          [] hsorted i hiD j hj hkey with hord | heq
      · exact keyOrder_neg_le hord
      · rw [heq]
    · have hmap : (retrieve_rules_rrf_body op logf qe req db dfn c).results.map
          (fun r => r.similarity_score) =
          (rulesChosen op logf qe req db dfn c).map
            (rrfScoreOf op logf qe req db dfn c) := by
        simp only [retrieve_rules_rrf_body, List.map_map]
        rfl
      rw [hmap]
      have hsorted' : List.Sorted
          (keyOrder (fun i => -(rrfScoreOf op logf qe req db dfn c i)))
          (rulesChosen op logf qe req db dfn c) :=
        List.Pairwise.sublist hsub hsorted
      exact List.Pairwise.map _ (fun a b h => keyOrder_neg_le h) hsorted'
    · simp only [retrieve_rules_rrf_body, List.length_map, hO]
      exact List.length_take_le _ _
    · by_cases hlen : req.k ≤ (dedupFirst (ruleKey (eligible db)) []
          (top_rrf op logf qe req db dfn c)).length
      · left
        rw [hO, List.length_take]
        omega
      · right
        push_neg at hlen
        have htake : (dedupFirst (ruleKey (eligible db)) []
            (top_rrf op logf qe req db dfn c)).take req.k =
            dedupFirst (ruleKey (eligible db)) []
              (top_rrf op logf qe req db dfn c) :=
          List.take_of_length_le (le_of_lt hlen)
        intro j hj
        rcases dedupFirst_covers (ruleKey (eligible db))
            (top_rrf op logf qe req db dfn c) [] j hj with hmem | ⟨i, hi, hik⟩
        · cases hmem
        · refine ⟨i, ?_, hik⟩
          rw [hO, htake]
          exact hi

/-- Witness for the C5 theorem at the one-fragment corpus. -/
theorem rule_aggregation_semantics_witness :
    (top_rrf sampleOp slog [0] reqOne dbOne none 60).length =
      min (reqOne.k * 2) (eligible dbOne).length ∧
    (∀ i ∈ rulesChosen sampleOp slog [0] reqOne dbOne none 60,
      i ∈ top_rrf sampleOp slog [0] reqOne dbOne none 60) ∧
    (∀ i ∈ rulesChosen sampleOp slog [0] reqOne dbOne none 60,
      ∀ j ∈ top_rrf sampleOp slog [0] reqOne dbOne none 60,
        ruleKey (eligible dbOne) j = ruleKey (eligible dbOne) i →
          rrfScoreOf sampleOp slog [0] reqOne dbOne none 60 j ≤
            rrfScoreOf sampleOp slog [0] reqOne dbOne none 60 i) ∧
    ((retrieve_rules_rrf_body sampleOp slog [0] reqOne dbOne none 60).results.map
      (fun r => r.similarity_score)).Sorted (fun a b => b ≤ a) ∧
    (retrieve_rules_rrf_body sampleOp slog [0] reqOne dbOne none 60).results.length ≤
      reqOne.k ∧
    (reqOne.k ≤ (rulesChosen sampleOp slog [0] reqOne dbOne none 60).length ∨
      ∀ j ∈ top_rrf sampleOp slog [0] reqOne dbOne none 60,
        ∃ i ∈ rulesChosen sampleOp slog [0] reqOne dbOne none 60,
          ruleKey (eligible dbOne) i = ruleKey (eligible dbOne) j) :=
  rule_aggregation_semantics sampleOp slog [0] reqOne dbOne none 60

/-- C7: under l2 the rows of retrieve_documents are ordered ascending by
the reported score (the l2 distance); under cosine they are ordered
descending, and every reported similarity_score equals 1 minus the
cosine distance between the chunk embedding and the query embedding. -/
theorem distance_metric_ordering (op : DistanceFunction → List ℚ → List ℚ → ℚ)
    (qe : List ℚ) (req : RetrieveRequest) (db : List RuleChunk) :
    ((retrieve_documents_body op qe req db (some .l2)).results.map
      (fun r => r.similarity_score)).Sorted (fun a b => a ≤ b) ∧
    ((retrieve_documents_body op qe req db (some .cosine)).results.map
      (fun r => r.similarity_score)).Sorted (fun a b => b ≤ a) ∧
    (∀ r ∈ (retrieve_documents_body op qe req db (some .cosine)).results,
      ∃ ch ∈ eligible db,
        r.similarity_score = 1 - op .cosine (emb ch) qe ∧ r.text = ch.chunk_text) := by
  refine ⟨?_, ?_, ?_⟩
  · simp only [retrieve_documents_body, Option.getD, sortKey_l2, List.map_map]
    exact sorted_map_score_take _ _
  · simp only [retrieve_documents_body, Option.getD, sortKey_cosine, List.map_map]
    exact sorted_map_score_take_neg _ _
  · intro r hr
    simp only [retrieve_documents_body, Option.getD, List.mem_map] at hr
    rcases hr with ⟨i, hi, rfl⟩
    have hin : i < (eligible db).length :=
      mem_sortIdx.mp ((List.take_sublist _ _).subset hi)
    exact ⟨(eligible db).getD i default, getD_mem_of_lt _ hin, rfl, rfl⟩

/-- Witness for the C7 theorem at the one-fragment corpus. -/
theorem distance_metric_ordering_witness :
    ((retrieve_documents_body sampleOp [0] reqOne dbOne (some .l2)).results.map
      (fun r => r.similarity_score)).Sorted (fun a b => a ≤ b) ∧
    ((retrieve_documents_body sampleOp [0] reqOne dbOne (some .cosine)).results.map
      (fun r => r.similarity_score)).Sorted (fun a b => b ≤ a) ∧
    (∀ r ∈ (retrieve_documents_body sampleOp [0] reqOne dbOne (some .cosine)).results,
      ∃ ch ∈ eligible dbOne,
        r.similarity_score = 1 - sampleOp .cosine (emb ch) [0] ∧
          r.text = ch.chunk_text) :=
  distance_metric_ordering sampleOp [0] reqOne dbOne

end SmartClause
